import Mathlib

/-!
# Verification of the GMaps auto-order reconciliation service

Shallow embedding of `src/index.js`: the per-campaign reconciliation loop of
the `run` function, the SQL queries it issues against the recycling DB and
the GMaps (tracker) DB, and the batch-submission loop.  SQL string operators
are modelled over `List Char`: `LIKE` with `%`/`_` wildcards (the source
query uses no `ESCAPE` clause), `ILIKE` as ASCII-case-insensitive substring
search, `DISTINCT` as first-occurrence deduplication and `ORDER BY` as a
sort by code-point order.  The external dashboard (`POST /api/batches`) is
modelled from the spec, see `submitStep`.
-/

set_option autoImplicit false
set_option maxRecDepth 1000

universe u

/-- ASCII lower-casing of one character, the case folding relevant to the
string constants compared by the source's `ILIKE` filters. -/
def charLower (c : Char) : Char :=
  if 65 ≤ c.toNat ∧ c.toNat ≤ 90 then Char.ofNat (c.toNat + 32) else c

/-- ASCII lower-casing of a character list. -/
def lowerList (l : List Char) : List Char :=
  l.map charLower

/-- All suffixes of a list, longest first, ending with `[]`. -/
def tails {α : Type u} : List α → List (List α)
  | [] => [[]]
  | x :: t => (x :: t) :: tails t

/-- Boolean test that `p` is a literal prefix of `s`. -/
def prefixOfB (p s : List Char) : Bool :=
  match p, s with
  | [], _ => true
  | _ :: _, [] => false
  | a :: ps, b :: ss => if a = b then prefixOfB ps ss else false

/-- SQL `LIKE` pattern matching: `%` matches any character sequence, `_`
matches exactly one character, every other pattern character matches itself.
The source query uses no `ESCAPE` clause. -/
def likeMatch : List Char → List Char → Bool
  | [], s => s.isEmpty
  | p :: ps, s =>
    if p = '%' then (tails s).any (fun t => likeMatch ps t)
    else
      match s with
      | [] => false
      | c :: t => (decide (p = '_') || decide (p = c)) && likeMatch ps t

/-- SQL `ILIKE '%pat%'`: case-insensitive substring test, modelled with
ASCII case folding. -/
def strContainsCI (pat s : String) : Bool :=
  (tails (lowerList s.toList)).any (fun t => prefixOfB (lowerList pat.toList) t)

/-- Boolean test that string `s` literally starts with string `p`. -/
def strStarts (s p : String) : Bool :=
  prefixOfB p.toList s.toList

/-- Code-point lexicographic `≤` on character lists, the order model used
for the SQL `ORDER BY` clauses. -/
def lexLe : List Char → List Char → Bool
  | [], _ => true
  | _ :: _, [] => false
  | x :: xs, y :: ys =>
    if x.toNat < y.toNat then true
    else if x.toNat = y.toNat then lexLe xs ys
    else false

/-- Insert an element into a list sorted by `le`. -/
def insertLe {α : Type u} (le : α → α → Bool) (x : α) : List α → List α
  | [] => [x]
  | y :: t => if le x y then x :: y :: t else y :: insertLe le x t

/-- Insertion sort by `le`; models SQL `ORDER BY`. -/
def sortLe {α : Type u} (le : α → α → Bool) : List α → List α
  | [] => []
  | x :: t => insertLe le x (sortLe le t)

/-- Keep the first occurrence of each element, skipping elements already in
`seen`; worker for `dedupFirst`. -/
def dedupAux {α : Type u} [DecidableEq α] (seen : List α) : List α → List α
  | [] => []
  | x :: t => if x ∈ seen then dedupAux seen t else x :: dedupAux (x :: seen) t

/-- First-occurrence deduplication; models SQL `UNION` / `SELECT DISTINCT`
and the insertion-order semantics of a JavaScript `Set`. -/
def dedupFirst {α : Type u} [DecidableEq α] (l : List α) : List α :=
  dedupAux [] l

/-- Row of `instant_campaigns` (recycling DB). -/
structure Campaign where
  id : Nat
  campaign_name : String
  is_active : Bool
  client_id : Nat
  deriving Repr, DecidableEq

/-- Row of `cities` (recycling DB). -/
structure City where
  id : Nat
  city_name : String
  state_code : String
  deriving Repr, DecidableEq

/-- Row of `campaign_cities` (recycling DB), the first-class per-campaign
target-assignment table. -/
structure CampaignCity where
  campaign_id : Nat
  city_id : Nat
  deriving Repr, DecidableEq

/-- Row of `client_city_claims` (recycling DB), the legacy ownership-claim
table. -/
structure CityClaim where
  client_id : Nat
  city_id : Nat
  deriving Repr, DecidableEq

/-- The recycling (registry) database state, read-only for a run. -/
structure RecyclingDB where
  instant_campaigns : List Campaign
  campaign_cities : List CampaignCity
  client_city_claims : List CityClaim
  cities : List City
  deriving Repr, DecidableEq

/-- Row of `jobs_batch` (GMaps tracker DB).  `lead_recycling_campaign_id`
and `campaign_name` are nullable (older batches predate those columns). -/
structure Batch where
  batch_id : Nat
  lead_recycling_campaign_id : Option Nat
  campaign_name : Option String
  name : String
  deriving Repr, DecidableEq

/-- JSON body of `POST /api/batches` (`payload` in the source). -/
structure Payload where
  name : String
  queries : List String
  autoImport : Bool
  targetStates : List String
  leadRecyclingCampaignId : Nat
  deriving Repr, DecidableEq

/-- Externally visible actions of a run, recorded in submission order. -/
inductive Effect where
  | post (payload : Payload)
  | updateName (batchId : Nat) (newName : String)
  | delay
  deriving Repr, DecidableEq

/-- Mutable state threaded through a run: the tracker store, the two
counters, the dashboard's id counter and the emitted effect trace. -/
structure RunState where
  gmaps : List Batch
  created : Nat
  skipped : Nat
  nextBatchId : Nat
  trace : List Effect
  deriving Repr, DecidableEq

/-- A resolved geographic target: one row of the cities query. -/
structure GeoTarget where
  city_name : String
  state_code : String
  deriving Repr, DecidableEq

/-- Max queries per batch (`BATCH_SIZE` in the source). -/
def BATCH_SIZE : Nat := 2000

/-- The static catalog of 211 GMaps business categories (`CATEGORIES`). -/
def CATEGORIES : List String := [
  "Accountant", "Attorney", "Auto repair shop", "Bank", "Church",
  "Construction company", "Dental clinic", "Doctor", "Funeral home",
  "General contractor", "Gym", "Hardware store", "HVAC contractor",
  "Insurance agency", "Law firm", "Pharmacy", "Place of worship",
  "Real estate agency", "School", "Tax preparation service", "Veterinarian",
  "Appliance store", "Architect", "Assisted living facility", "Auto dealer",
  "Auto parts store", "Bowling alley", "Car rental agency", "Child care agency",
  "Chiropractor", "Community center", "Credit union", "Day care center",
  "Driving school", "Electronics store", "Employment agency", "Eye care center",
  "Financial planner", "Fitness center", "Furniture store", "Golf course",
  "Home goods store", "Hospital", "Hotel", "Martial arts school", "Mattress store",
  "Medical clinic", "Movie theater", "Music school", "Nursing home", "Optometrist",
  "Personal trainer", "Physical therapy clinic", "Preschool", "Printing service",
  "Property management company", "Recreation center", "Senior center",
  "Tire shop", "Title company", "Travel agency", "Tutoring service",
  "Urgent care center", "Wedding venue", "Wellness center", "Yoga studio",
  "Addiction treatment center", "After school program", "Allergist",
  "Art gallery", "Art school", "Audiologist", "Banquet hall",
  "Building materials store", "Business management consultant", "Cardiologist",
  "Co-working space", "College", "Commercial printer", "Computer consultant",
  "Computer support and services", "Consultant", "Country club", "Dance school",
  "Department store", "Dermatologist", "Engineer", "Equipment rental agency",
  "Event venue", "Gastroenterologist", "Gymnastics center", "Hospice",
  "Indoor playground", "Investment company", "Laboratory", "Language school",
  "Loan agency", "Machine shop", "Mental health clinic", "Mortgage lender",
  "Motorcycle dealer", "Neurologist", "Non-profit organization", "Notary public",
  "Nursing agency", "Nutritionist", "Office furniture store", "Ophthalmologist",
  "Orthopedic clinic", "Osteopath", "Pediatrician", "Plumbing supply store",
  "Podiatrist", "Private investigator", "Rehabilitation center", "RV dealer",
  "Sports club", "Surgeon", "Swimming pool", "Technical school",
  "Truck dealer", "Truck repair shop", "University", "Urologist",
  "Vocational school", "Warehouse",
  "Aerospace company", "Association or organization", "Automation company",
  "Biotechnology company", "Blood bank", "Bottling company", "Business school",
  "Call center", "Car inspection station", "Chamber of commerce", "Chemical wholesaler",
  "Computer security service", "Computer training school", "Conference center",
  "Convention center", "Corporate office", "Council", "Credit counseling service",
  "Culinary school", "Data recovery service", "Dental laboratory", "Diagnostic center",
  "Dialysis center", "Distribution service", "Education center",
  "Electric motor repair shop", "Electrical supply store", "Factory",
  "Farm equipment supplier", "Fertility clinic", "Fitness equipment store",
  "Flight school", "Food processing equipment", "Freight forwarding service",
  "Geriatrician", "Industrial chemicals wholesaler", "Industrial design company",
  "Industrial equipment supplier", "Insurance company", "Labor union",
  "Logistics service", "Management school", "Manufacturer", "Medical diagnostic imaging center",
  "Medical laboratory", "Metal fabricator", "Metal supplier", "MRI center",
  "Office space rental agency", "Oncologist", "Otolaryngologist", "Outlet store",
  "Outpatient surgery center", "Packaging supply store", "Pain management physician",
  "Payroll service", "Pharmaceutical company", "Plastic fabrication company",
  "Plastic surgery clinic", "Printing equipment supplier", "Psychiatric hospital",
  "Radiology center", "Reproductive health clinic", "Safety equipment supplier",
  "Scientific equipment supplier", "Shipping company", "Shopping mall", "Showroom",
  "Software company", "Special education school", "Sports complex", "Sports medicine clinic",
  "Steel distributor", "Steel fabricator", "Student housing center", "Surgical center",
  "Telecommunications service provider", "Tennis court", "Textile mill", "Tool store",
  "Training centre", "Veterinary emergency hospital", "Welding supply store",
  "Wholesaler", "Women's health clinic"]

/-- Cities query of `run` (step 3), inner `UNION` branch 1: the rows of
`campaign_cities` for the campaign, projected to `city_id`. -/
def pipelineCityIds (rdb : RecyclingDB) (cid : Nat) : List Nat :=
  (rdb.campaign_cities.filter (fun r => decide (r.campaign_id = cid))).map (fun r => r.city_id)

/-- Cities query, inner `UNION` branch 2: `client_city_claims` joined to
`instant_campaigns` on `client_id`, filtered to the campaign id, projected
to `city_id`. -/
def claimCityIds (rdb : RecyclingDB) (cid : Nat) : List Nat :=
  (rdb.instant_campaigns.filter (fun ic => decide (ic.id = cid))).flatMap
    (fun ic => (rdb.client_city_claims.filter (fun r => decide (r.client_id = ic.client_id))).map
      (fun r => r.city_id))

/-- The `combined` subquery: `UNION` of the two city-id sources (set
semantics, first occurrence kept). -/
def combinedCityIds (rdb : RecyclingDB) (cid : Nat) : List Nat :=
  dedupFirst (pipelineCityIds rdb cid ++ claimCityIds rdb cid)

/-- `JOIN cities c ON c.id = combined.city_id`. -/
def matchedCities (rdb : RecyclingDB) (cid : Nat) : List City :=
  (combinedCityIds rdb cid).flatMap (fun i => rdb.cities.filter (fun c => decide (c.id = i)))

/-- `WHERE c.city_name NOT ILIKE '%county%'`. -/
def eligibleCities (rdb : RecyclingDB) (cid : Nat) : List City :=
  (matchedCities rdb cid).filter (fun c => !(strContainsCI "county" c.city_name))

/-- The full cities query: `SELECT DISTINCT c.city_name, c.state_code ...
ORDER BY c.city_name` — the campaign's resolved GeoTarget list
(`allCities` in the source). -/
def resolvedTargets (rdb : RecyclingDB) (cid : Nat) : List GeoTarget :=
  sortLe (fun a b => lexLe a.city_name.toList b.city_name.toList)
    (dedupFirst ((eligibleCities rdb cid).map (fun c => GeoTarget.mk c.city_name c.state_code)))

/-- Campaigns query of `run` (step 1): active campaigns whose name contains
`(GMaps)` (case-insensitively), ordered by id ascending. -/
def activeCampaigns (rdb : RecyclingDB) : List Campaign :=
  sortLe (fun a b => decide (a.id ≤ b.id))
    (rdb.instant_campaigns.filter
      (fun c => strContainsCI "(GMaps)" c.campaign_name && c.is_active))

/-- One query string: `` `${cat} in ${location}` `` with
`` location = `${city.city_name}, ${city.state_code}` ``. -/
def queryOf (city : GeoTarget) (cat : String) : String :=
  cat ++ " in " ++ (city.city_name ++ ", " ++ city.state_code)

/-- Query-building loop of `run` (step 4): for each city push one query per
catalog entry, in catalog order. -/
def buildQueries (cities : List GeoTarget) : List String :=
  cities.foldl (fun acc city => acc ++ CATEGORIES.map (queryOf city)) []

/-- The `targetStates` set of `run` (step 4), spread into an array: the
distinct state codes in first-insertion order. -/
def targetStatesOf (cities : List GeoTarget) : List String :=
  dedupFirst (cities.map (fun c => c.state_code))

/-- `Math.ceil(queries.length / BATCH_SIZE)` (`totalParts`). -/
def totalParts (n : Nat) : Nat :=
  (n + BATCH_SIZE - 1) / BATCH_SIZE

/-- The partition of the query list produced by the submission loop:
part `i` is `queries.slice(i * BATCH_SIZE, (i + 1) * BATCH_SIZE)`. -/
def planChunks (qs : List String) : List (List String) :=
  (List.range (totalParts qs.length)).map
    (fun i => (qs.drop (i * BATCH_SIZE)).take BATCH_SIZE)

/-- Row predicate of the existing-batch query of `run` (step 2):
`lead_recycling_campaign_id = $1 OR campaign_name = $2 OR name LIKE $3`
with `$3 = campaign_name ++ "%"` (SQL `NULL` compares unequal). -/
def batchMatches (cid : Nat) (cname : String) (b : Batch) : Bool :=
  decide (b.lead_recycling_campaign_id = some cid)
  || decide (b.campaign_name = some cname)
  || likeMatch (cname ++ "%").toList b.name.toList

/-- `SELECT COUNT(*) FROM jobs_batch WHERE ...` of the existing-batch
check. -/
def countExisting (gmaps : List Batch) (cid : Nat) (cname : String) : Nat :=
  gmaps.countP (batchMatches cid cname)

/-- `UPDATE jobs_batch SET campaign_name = $1 WHERE batch_id = $2`. -/
def updateBatchName (bid : Nat) (newName : String) (gmaps : List Batch) : List Batch :=
  gmaps.map (fun b => if b.batch_id = bid then { b with campaign_name := some newName } else b)

/-- Display names of the `post` effects of a trace, in order. -/
def postedNames (tr : List Effect) : List String :=
  tr.filterMap (fun e => match e with
    | Effect.post p => some p.name
    | _ => none)

/-- Recognizer for the tracker-store correction write. -/
def isUpdateEffect : Effect → Bool
  | Effect.updateName _ _ => true
  | _ => false

/-- One iteration of the submission loop of `run` (step 5) for part index
`i` (0-based).  Modelled from the spec: the dashboard service is external
(§6); on `POST /api/batches` it creates a tracker-store `jobs_batch` row
carrying the submitted display name and a back-reference to the source
campaign id, and returns a fresh opaque batch id (`data.batchId`), modelled
by the monotone counter `nextBatchId`. -/
def submitStep (base : String) (cid : Nat) (qs : List String) (states : List String)
    (tp : Nat) (st : RunState) (i : Nat) : RunState :=
  let batchName := if 1 < tp then base ++ " Part " ++ toString (i + 1) else base
  let chunk := (qs.drop (i * BATCH_SIZE)).take BATCH_SIZE
  let payload : Payload := ⟨batchName, chunk, true, states, cid⟩
  let bid := st.nextBatchId
  let g1 := st.gmaps ++ [⟨bid, some cid, some batchName, batchName⟩]
  let t1 := st.trace ++ [Effect.post payload]
  let g2 := if 1 < tp then updateBatchName bid base g1 else g1
  let t2 := if 1 < tp then t1 ++ [Effect.updateName bid base] else t1
  let t3 := if i < tp - 1 then t2 ++ [Effect.delay] else t2
  { gmaps := g2, created := st.created + 1, skipped := st.skipped,
    nextBatchId := bid + 1, trace := t3 }

/-- The per-campaign body of the `for (const campaign of campaigns)` loop
of `run`: existing-work check, target resolution, query building, dry-run
gate, then the submission loop. -/
def processCampaign (dry : Bool) (rdb : RecyclingDB) (st : RunState) (c : Campaign) : RunState :=
  if 0 < countExisting st.gmaps c.id c.campaign_name then
    { st with skipped := st.skipped + 1 }
  else
    let allCities := resolvedTargets rdb c.id
    if allCities.length = 0 then
      { st with skipped := st.skipped + 1 }
    else
      let qs := buildQueries allCities
      let states := targetStatesOf allCities
      let tp := totalParts qs.length
      if dry then st
      else (List.range tp).foldl (submitStep c.campaign_name c.id qs states tp) st

/-- The whole `run` function: process every active GMaps campaign in
order. -/
def run (dry : Bool) (rdb : RecyclingDB) (st : RunState) : RunState :=
  (activeCampaigns rdb).foldl (processCampaign dry rdb) st

/-! ## String and list helper lemmas -/

theorem nil_mem_tails {α : Type u} : ∀ l : List α, [] ∈ tails l
  | [] => by simp [tails]
  | x :: t => by
      simp only [tails, List.mem_cons]
      exact Or.inr (nil_mem_tails t)

theorem self_mem_tails {α : Type u} : ∀ l : List α, l ∈ tails l
  | [] => by simp [tails]
  | _ :: _ => by simp [tails]

theorem mem_tails_cons {α : Type u} {a l : List α} (x : α) (h : a ∈ tails l) :
    a ∈ tails (x :: l) := by
  simp only [tails, List.mem_cons]
  exact Or.inr h

theorem likeMatch_append_pct : ∀ s r : List Char, likeMatch (s ++ ['%']) (s ++ r) = true := by
  intro s
  induction s with
  | nil =>
      intro r
      simp only [List.nil_append, likeMatch, if_pos rfl]
      exact List.any_eq_true.mpr ⟨[], nil_mem_tails r, rfl⟩
  | cons c s ih =>
      intro r
      by_cases hc : c = '%'
      · subst hc
        simp only [List.cons_append, likeMatch, if_pos rfl]
        exact List.any_eq_true.mpr ⟨s ++ r, mem_tails_cons _ (self_mem_tails _), ih r⟩
      · simp [List.cons_append, likeMatch, hc, ih r]

theorem prefixOfB_iff : ∀ p s : List Char, prefixOfB p s = true ↔ ∃ r, s = p ++ r := by
  intro p
  induction p with
  | nil => intro s; simp [prefixOfB]
  | cons a ps ih =>
      intro s
      cases s with
      | nil => simp [prefixOfB]
      | cons b ss =>
          by_cases hab : a = b
          · subst hab
            simp [prefixOfB, ih ss]
          · simp only [prefixOfB, if_neg hab]
            constructor
            · intro h
              exact (Bool.false_ne_true h).elim
            · rintro ⟨r, hr⟩
              injection hr with h1 _
              exact absurd h1.symm hab

theorem stringToList_append (a b : String) : (a ++ b).toList = a.toList ++ b.toList := by
  cases a; cases b; rfl

theorem likeMatch_of_strStarts {n p : String} (h : strStarts n p = true) :
    likeMatch (p ++ "%").toList n.toList = true := by
  obtain ⟨r, hr⟩ := (prefixOfB_iff p.toList n.toList).mp h
  rw [stringToList_append, hr]
  exact likeMatch_append_pct p.toList r

theorem map_id_of {α : Type u} (f : α → α) :
    ∀ l : List α, (∀ x ∈ l, f x = x) → l.map f = l := by
  intro l
  induction l with
  | nil => intro _; rfl
  | cons x t ih =>
      intro h
      simp only [List.map_cons]
      rw [h x (List.mem_cons_self x t), ih (fun y hy => h y (List.mem_cons_of_mem x hy))]

theorem insertLe_perm {α : Type u} (le : α → α → Bool) (x : α) :
    ∀ l : List α, List.Perm (insertLe le x l) (x :: l)
  | [] => List.Perm.refl _
  | y :: t => by
      simp only [insertLe]
      split
      · exact List.Perm.refl _
      · exact (List.Perm.cons y (insertLe_perm le x t)).trans (List.Perm.swap x y t)

theorem sortLe_perm {α : Type u} (le : α → α → Bool) :
    ∀ l : List α, List.Perm (sortLe le l) l
  | [] => List.Perm.refl _
  | x :: t => (insertLe_perm le x (sortLe le t)).trans ((sortLe_perm le t).cons x)

theorem mem_sortLe {α : Type u} (le : α → α → Bool) (l : List α) (x : α) :
    x ∈ sortLe le l ↔ x ∈ l :=
  (sortLe_perm le l).mem_iff

theorem mem_of_mem_dedupAux {α : Type u} [DecidableEq α] :
    ∀ (l seen : List α) (x : α), x ∈ dedupAux seen l → x ∈ l := by
  intro l
  induction l with
  | nil => intro seen x h; simp [dedupAux] at h
  | cons y t ih =>
      intro seen x h
      simp only [dedupAux] at h
      split at h
      · exact List.mem_cons_of_mem y (ih seen x h)
      · rcases List.mem_cons.mp h with h' | h'
        · exact h' ▸ List.mem_cons_self y t
        · exact List.mem_cons_of_mem y (ih (y :: seen) x h')

theorem dedupAux_nodup {α : Type u} [DecidableEq α] :
    ∀ (l seen : List α), (dedupAux seen l).Nodup ∧ ∀ x ∈ dedupAux seen l, x ∉ seen := by
  intro l
  induction l with
  | nil => intro seen; simp [dedupAux]
  | cons y t ih =>
      intro seen
      simp only [dedupAux]
      split
      · exact ih seen
      · rename_i hy
        obtain ⟨hnd, hmem⟩ := ih (y :: seen)
        refine ⟨List.nodup_cons.mpr ⟨fun hmem' => ?_, hnd⟩, ?_⟩
        · exact hmem y hmem' (List.mem_cons_self y seen)
        · intro x hx
          rcases List.mem_cons.mp hx with h' | h'
          · exact h' ▸ hy
          · intro hxs
            exact hmem x h' (List.mem_cons_of_mem y hxs)

theorem dedupFirst_nodup {α : Type u} [DecidableEq α] (l : List α) :
    (dedupFirst l).Nodup :=
  (dedupAux_nodup l []).1

theorem mem_of_mem_dedupFirst {α : Type u} [DecidableEq α] {l : List α} {x : α}
    (h : x ∈ dedupFirst l) : x ∈ l :=
  mem_of_mem_dedupAux l [] x h

/-! ## Query-planner lemmas -/

theorem buildQueries_foldl (cities : List GeoTarget) :
    ∀ acc : List String,
      cities.foldl (fun acc city => acc ++ CATEGORIES.map (queryOf city)) acc
        = acc ++ (cities.map (fun c => CATEGORIES.map (queryOf c))).flatten := by
  induction cities with
  | nil => intro acc; simp
  | cons c t ih =>
      intro acc
      simp only [List.foldl_cons, List.map_cons, List.flatten_cons]
      rw [ih, List.append_assoc]

theorem buildQueries_eq (cities : List GeoTarget) :
    buildQueries cities = (cities.map (fun c => CATEGORIES.map (queryOf c))).flatten := by
  unfold buildQueries
  rw [buildQueries_foldl cities []]
  rfl

theorem length_buildQueries (cities : List GeoTarget) :
    (buildQueries cities).length = cities.length * CATEGORIES.length := by
  rw [buildQueries_eq]
  induction cities with
  | nil => simp
  | cons c t ih =>
      simp only [List.map_cons, List.flatten_cons, List.length_append, List.length_map,
        List.length_cons, ih]
      ring

theorem buildQueries_pos {cities : List GeoTarget} (h : cities ≠ []) :
    1 ≤ (buildQueries cities).length := by
  rw [length_buildQueries]
  exact Nat.mul_pos (List.length_pos.mpr h) (by decide)

theorem totalParts_zero : totalParts 0 = 0 := by decide

theorem totalParts_pos {n : Nat} (h : 1 ≤ n) : 1 ≤ totalParts n := by
  unfold totalParts BATCH_SIZE
  rw [Nat.one_le_div_iff (by norm_num)]
  omega

theorem totalParts_succ {n : Nat} (h : 1 ≤ n) :
    totalParts n = totalParts (n - BATCH_SIZE) + 1 := by
  unfold totalParts BATCH_SIZE
  by_cases h2 : 2000 ≤ n
  · rw [Nat.div_eq_sub_div (by norm_num) (show 2000 ≤ n + 2000 - 1 by omega)]
    have e1 : n + 2000 - 1 - 2000 = n - 2000 + 2000 - 1 := by omega
    rw [e1]
  · have e0 : n - 2000 = 0 := by omega
    rw [e0]
    rw [Nat.div_eq_sub_div (by norm_num) (show 2000 ≤ n + 2000 - 1 by omega)]
    have e1 : n + 2000 - 1 - 2000 = n - 1 := by omega
    rw [e1, Nat.div_eq_of_lt (by omega)]

theorem totalParts_eq_one {n : Nat} (h1 : 1 ≤ n) (h2 : n ≤ BATCH_SIZE) : totalParts n = 1 := by
  rw [totalParts_succ h1]
  have e0 : n - BATCH_SIZE = 0 := by
    unfold BATCH_SIZE at h2 ⊢
    omega
  rw [e0, totalParts_zero]

theorem planChunks_nil : planChunks [] = [] := by decide

theorem planChunks_cons {qs : List String} (h : qs ≠ []) :
    planChunks qs = qs.take BATCH_SIZE :: planChunks (qs.drop BATCH_SIZE) := by
  have h1 : totalParts qs.length = totalParts ((qs.drop BATCH_SIZE).length) + 1 := by
    rw [List.length_drop]
    exact totalParts_succ (List.length_pos.mpr h)
  show (List.range (totalParts qs.length)).map
      (fun i => (qs.drop (i * BATCH_SIZE)).take BATCH_SIZE)
    = qs.take BATCH_SIZE :: planChunks (qs.drop BATCH_SIZE)
  rw [h1, List.range_succ_eq_map, List.map_cons, List.map_map]
  simp only [List.cons.injEq]
  constructor
  · rw [Nat.zero_mul, List.drop_zero]
  · unfold planChunks
    apply List.map_congr_left
    intro i _
    simp only [Function.comp_apply]
    rw [List.drop_drop]
    have e1 : Nat.succ i * BATCH_SIZE = BATCH_SIZE + i * BATCH_SIZE := by
      rw [Nat.succ_mul]
      omega
    rw [e1]

theorem planChunks_ne_nil {qs : List String} (h : qs ≠ []) : planChunks qs ≠ [] := by
  rw [planChunks_cons h]
  exact List.cons_ne_nil _ _

theorem planChunks_flatten_aux :
    ∀ (fuel : Nat) (qs : List String), qs.length ≤ fuel → (planChunks qs).flatten = qs := by
  intro fuel
  induction fuel with
  | zero =>
      intro qs h
      have hq : qs = [] := List.length_eq_zero.mp (Nat.le_zero.mp h)
      subst hq
      rw [planChunks_nil]
      rfl
  | succ n ih =>
      intro qs h
      by_cases hq : qs = []
      · subst hq; rw [planChunks_nil]; rfl
      · rw [planChunks_cons hq, List.flatten_cons]
        rw [ih (qs.drop BATCH_SIZE) ?_]
        · exact List.take_append_drop _ _
        · rw [List.length_drop]
          have := List.length_pos.mpr hq
          unfold BATCH_SIZE
          omega

theorem planChunks_flatten (qs : List String) : (planChunks qs).flatten = qs :=
  planChunks_flatten_aux qs.length qs (Nat.le_refl _)

theorem planChunks_length (qs : List String) :
    (planChunks qs).length = totalParts qs.length := by
  simp [planChunks]

theorem planChunks_dropLast_aux :
    ∀ (fuel : Nat) (qs : List String), qs.length ≤ fuel →
      ∀ l ∈ (planChunks qs).dropLast, l.length = BATCH_SIZE := by
  intro fuel
  induction fuel with
  | zero =>
      intro qs h
      have hq : qs = [] := List.length_eq_zero.mp (Nat.le_zero.mp h)
      subst hq
      rw [planChunks_nil]
      simp
  | succ n ih =>
      intro qs h
      by_cases hq : qs = []
      · subst hq; rw [planChunks_nil]; simp
      · rw [planChunks_cons hq]
        by_cases hd : qs.drop BATCH_SIZE = []
        · rw [hd, planChunks_nil]
          simp
        · rw [List.dropLast_cons_of_ne_nil (planChunks_ne_nil hd)]
          intro l hl
          rcases List.mem_cons.mp hl with h' | h'
          · subst h'
            rw [List.length_take]
            have hlt : BATCH_SIZE < qs.length := by
              have := List.length_pos.mpr hd
              rw [List.length_drop] at this
              omega
            omega
          · refine ih (qs.drop BATCH_SIZE) ?_ l h'
            rw [List.length_drop]
            have := List.length_pos.mpr hq
            unfold BATCH_SIZE
            omega

/-! ## Submission-loop lemmas -/

theorem updateBatchName_append_fresh (bid : Nat) (nm : String) (g : List Batch) (row : Batch)
    (h : ∀ b ∈ g, b.batch_id ≠ bid) :
    updateBatchName bid nm (g ++ [row])
      = g ++ [if row.batch_id = bid then { row with campaign_name := some nm } else row] := by
  unfold updateBatchName
  rw [List.map_append, map_id_of _ g (fun b hb => if_neg (h b hb))]
  rfl

/-- Full characterization of one submission-loop iteration, assuming every
stored batch id is below the dashboard's id counter. -/
theorem submitStep_spec (base : String) (cid : Nat) (qs : List String) (states : List String)
    (tp : Nat) (st : RunState) (i : Nat)
    (hinv : ∀ b ∈ st.gmaps, b.batch_id < st.nextBatchId) :
    submitStep base cid qs states tp st i =
      { gmaps := st.gmaps ++ [⟨st.nextBatchId, some cid, some base,
          if 1 < tp then base ++ " Part " ++ toString (i + 1) else base⟩],
        created := st.created + 1,
        skipped := st.skipped,
        nextBatchId := st.nextBatchId + 1,
        trace := st.trace
          ++ ([Effect.post ⟨if 1 < tp then base ++ " Part " ++ toString (i + 1) else base,
                (qs.drop (i * BATCH_SIZE)).take BATCH_SIZE, true, states, cid⟩]
            ++ (if 1 < tp then [Effect.updateName st.nextBatchId base] else [])
            ++ (if i < tp - 1 then [Effect.delay] else [])) } := by
  simp only [submitStep]
  by_cases htp : 1 < tp
  · simp only [if_pos htp]
    rw [updateBatchName_append_fresh _ _ _ _ (fun b hb => Nat.ne_of_lt (hinv b hb))]
    simp only [if_pos rfl]
    by_cases hdel : i < tp - 1
    · simp [if_pos hdel, List.append_assoc]
    · simp [if_neg hdel, List.append_assoc]
  · simp only [if_neg htp]
    by_cases hdel : i < tp - 1
    · simp [if_pos hdel, List.append_assoc]
    · simp [if_neg hdel, List.append_assoc]

/-- Invariant and effect summary of the whole submission loop over a list of
part indices. -/
theorem submitFold_spec (base : String) (cid : Nat) (qs : List String) (states : List String)
    (tp : Nat) :
    ∀ (l : List Nat) (st : RunState),
      (∀ b ∈ st.gmaps, b.batch_id < st.nextBatchId) →
      ∃ rows tr,
        (l.foldl (submitStep base cid qs states tp) st).gmaps = st.gmaps ++ rows
        ∧ (l.foldl (submitStep base cid qs states tp) st).trace = st.trace ++ tr
        ∧ (l.foldl (submitStep base cid qs states tp) st).created = st.created + l.length
        ∧ (l.foldl (submitStep base cid qs states tp) st).skipped = st.skipped
        ∧ (l.foldl (submitStep base cid qs states tp) st).nextBatchId = st.nextBatchId + l.length
        ∧ rows.length = l.length
        ∧ (∀ b ∈ rows, b.lead_recycling_campaign_id = some cid ∧ b.campaign_name = some base
            ∧ st.nextBatchId ≤ b.batch_id)
        ∧ postedNames tr
            = l.map (fun i => if 1 < tp then base ++ " Part " ++ toString (i + 1) else base)
        ∧ tr.countP isUpdateEffect = (if 1 < tp then l.length else 0)
        ∧ (∀ b ∈ (l.foldl (submitStep base cid qs states tp) st).gmaps,
            b.batch_id < (l.foldl (submitStep base cid qs states tp) st).nextBatchId) := by
  intro l
  induction l with
  | nil =>
      intro st hinv
      refine ⟨[], [], by simp, by simp, by simp, rfl, by simp, rfl, by simp, rfl, by simp, hinv⟩
  | cons i l ih =>
      intro st hinv
      have hstep := submitStep_spec base cid qs states tp st i hinv
      have hinv1 : ∀ b ∈ (submitStep base cid qs states tp st i).gmaps,
          b.batch_id < (submitStep base cid qs states tp st i).nextBatchId := by
        rw [hstep]
        intro b hb
        rcases List.mem_append.mp hb with hb' | hb'
        · exact Nat.lt_trans (hinv b hb') (Nat.lt_succ_self _)
        · rcases List.mem_singleton.mp hb' with rfl
          exact Nat.lt_succ_self _
      obtain ⟨rows, tr, hg, ht, hc, hs, hn, hrl, hrprop, hpn, hcnt, hinv'⟩
        := ih (submitStep base cid qs states tp st i) hinv1
      rw [List.foldl_cons]
      refine ⟨(⟨st.nextBatchId, some cid, some base,
          if 1 < tp then base ++ " Part " ++ toString (i + 1) else base⟩ : Batch) :: rows,
        ([Effect.post ⟨if 1 < tp then base ++ " Part " ++ toString (i + 1) else base,
            (qs.drop (i * BATCH_SIZE)).take BATCH_SIZE, true, states, cid⟩]
          ++ (if 1 < tp then [Effect.updateName st.nextBatchId base] else [])
          ++ (if i < tp - 1 then [Effect.delay] else [])) ++ tr,
        ?_, ?_, ?_, ?_, ?_, ?_, ?_, ?_, ?_, hinv'⟩
      · rw [hg, hstep]
        simp [List.append_assoc]
      · rw [ht, hstep]
        simp [List.append_assoc]
      · rw [hc, hstep]
        simp only [List.length_cons]
        omega
      · rw [hs, hstep]
      · rw [hn, hstep]
        simp only [List.length_cons]
        omega
      · simp only [List.length_cons, hrl]
      · intro b hb
        rcases List.mem_cons.mp hb with rfl | hb'
        · exact ⟨rfl, rfl, Nat.le_refl _⟩
        · obtain ⟨h1, h2, h3⟩ := hrprop b hb'
          refine ⟨h1, h2, ?_⟩
          rw [hstep] at h3
          exact Nat.le_of_lt (Nat.lt_of_lt_of_le (Nat.lt_succ_self _) h3)
      · unfold postedNames at hpn ⊢
        rw [List.filterMap_append, hpn]
        by_cases htp : 1 < tp <;> by_cases hdel : i < tp - 1 <;>
          simp [htp, hdel, List.filterMap_append]
      · rw [List.countP_append, hcnt]
        by_cases htp : 1 < tp <;> by_cases hdel : i < tp - 1 <;>
          simp [htp, hdel, isUpdateEffect, List.countP_append, List.countP_cons,
            List.length_cons] <;> omega

/-! ## Per-campaign and run-level lemmas -/

theorem pc_skip_existing {dry : Bool} {rdb : RecyclingDB} {st : RunState} {c : Campaign}
    (h : 0 < countExisting st.gmaps c.id c.campaign_name) :
    processCampaign dry rdb st c = { st with skipped := st.skipped + 1 } := by
  simp [processCampaign, h]

theorem pc_skip_empty {dry : Bool} {rdb : RecyclingDB} {st : RunState} {c : Campaign}
    (h : resolvedTargets rdb c.id = []) :
    processCampaign dry rdb st c = { st with skipped := st.skipped + 1 } := by
  by_cases hc : 0 < countExisting st.gmaps c.id c.campaign_name
  · simp [processCampaign, hc]
  · simp [processCampaign, hc, h]

theorem pc_create {rdb : RecyclingDB} {st : RunState} {c : Campaign}
    (hct : ¬ 0 < countExisting st.gmaps c.id c.campaign_name)
    (hne : resolvedTargets rdb c.id ≠ []) :
    processCampaign false rdb st c
      = (List.range (totalParts (buildQueries (resolvedTargets rdb c.id)).length)).foldl
          (submitStep c.campaign_name c.id (buildQueries (resolvedTargets rdb c.id))
            (targetStatesOf (resolvedTargets rdb c.id))
            (totalParts (buildQueries (resolvedTargets rdb c.id)).length)) st := by
  simp [processCampaign, hct, List.length_eq_zero, hne]

theorem pc_dry_plan {rdb : RecyclingDB} {st : RunState} {c : Campaign}
    (hct : ¬ 0 < countExisting st.gmaps c.id c.campaign_name)
    (hne : resolvedTargets rdb c.id ≠ []) :
    processCampaign true rdb st c = st := by
  simp [processCampaign, hct, List.length_eq_zero, hne]

theorem pc_extend {rdb : RecyclingDB} (st : RunState) (c : Campaign)
    (hinv : ∀ b ∈ st.gmaps, b.batch_id < st.nextBatchId) :
    ∃ rows, (processCampaign false rdb st c).gmaps = st.gmaps ++ rows
      ∧ ∀ b ∈ (processCampaign false rdb st c).gmaps,
          b.batch_id < (processCampaign false rdb st c).nextBatchId := by
  by_cases hc : 0 < countExisting st.gmaps c.id c.campaign_name
  · exact ⟨[], by rw [pc_skip_existing hc]; simp, by rw [pc_skip_existing hc]; exact hinv⟩
  · by_cases hne : resolvedTargets rdb c.id = []
    · exact ⟨[], by rw [pc_skip_empty hne]; simp, by rw [pc_skip_empty hne]; exact hinv⟩
    · obtain ⟨rows, tr, hg, -, -, -, -, -, -, -, -, hinv'⟩ :=
        submitFold_spec c.campaign_name c.id (buildQueries (resolvedTargets rdb c.id))
          (targetStatesOf (resolvedTargets rdb c.id))
          (totalParts (buildQueries (resolvedTargets rdb c.id)).length)
          (List.range (totalParts (buildQueries (resolvedTargets rdb c.id)).length)) st hinv
      rw [pc_create hc hne]
      exact ⟨rows, hg, hinv'⟩

theorem pc_dichotomy {rdb : RecyclingDB} (st : RunState) (c : Campaign)
    (hinv : ∀ b ∈ st.gmaps, b.batch_id < st.nextBatchId) :
    0 < countExisting ((processCampaign false rdb st c).gmaps) c.id c.campaign_name
      ∨ resolvedTargets rdb c.id = [] := by
  by_cases hc : 0 < countExisting st.gmaps c.id c.campaign_name
  · left
    rw [pc_skip_existing hc]
    exact hc
  · by_cases hne : resolvedTargets rdb c.id = []
    · exact Or.inr hne
    · left
      obtain ⟨rows, tr, hg, -, -, -, -, hrl, hrprop, -, -, -⟩ :=
        submitFold_spec c.campaign_name c.id (buildQueries (resolvedTargets rdb c.id))
          (targetStatesOf (resolvedTargets rdb c.id))
          (totalParts (buildQueries (resolvedTargets rdb c.id)).length)
          (List.range (totalParts (buildQueries (resolvedTargets rdb c.id)).length)) st hinv
      rw [pc_create hc hne, hg]
      unfold countExisting
      rw [List.countP_append]
      have hrows : rows ≠ [] := by
        intro h0
        rw [h0] at hrl
        simp only [List.length_nil, List.length_range] at hrl
        have := totalParts_pos (buildQueries_pos hne)
        omega
      obtain ⟨b, hb⟩ := List.exists_mem_of_ne_nil rows hrows
      have hpos : 0 < rows.countP (batchMatches c.id c.campaign_name) := by
        refine List.countP_pos_iff.mpr ⟨b, hb, ?_⟩
        simp [batchMatches, (hrprop b hb).1]
      omega

theorem foldl_pc_extend {rdb : RecyclingDB} :
    ∀ (l : List Campaign) (st : RunState),
      (∀ b ∈ st.gmaps, b.batch_id < st.nextBatchId) →
      ∃ rows, (l.foldl (processCampaign false rdb) st).gmaps = st.gmaps ++ rows
        ∧ ∀ b ∈ (l.foldl (processCampaign false rdb) st).gmaps,
            b.batch_id < (l.foldl (processCampaign false rdb) st).nextBatchId := by
  intro l
  induction l with
  | nil => intro st hinv; exact ⟨[], by simp, hinv⟩
  | cons c l ih =>
      intro st hinv
      obtain ⟨rows1, hg1, hinv1⟩ := pc_extend st c hinv
      obtain ⟨rows2, hg2, hinv2⟩ := ih (processCampaign false rdb st c) hinv1
      rw [List.foldl_cons]
      exact ⟨rows1 ++ rows2, by rw [hg2, hg1, List.append_assoc], hinv2⟩

theorem run1_dichotomy {rdb : RecyclingDB} :
    ∀ (l : List Campaign) (st : RunState),
      (∀ b ∈ st.gmaps, b.batch_id < st.nextBatchId) →
      ∀ c ∈ l,
        0 < countExisting ((l.foldl (processCampaign false rdb) st).gmaps) c.id c.campaign_name
          ∨ resolvedTargets rdb c.id = [] := by
  intro l
  induction l with
  | nil => intro st _ c hc; exact absurd hc (List.not_mem_nil c)
  | cons c0 l ih =>
      intro st hinv c hc
      obtain ⟨rows1, hg1, hinv1⟩ := @pc_extend rdb st c0 hinv
      rw [List.foldl_cons]
      rcases List.mem_cons.mp hc with rfl | hc'
      · rcases @pc_dichotomy rdb st c hinv with hpos | hempty
        · left
          obtain ⟨rows2, hg2, -⟩ := foldl_pc_extend l (processCampaign false rdb st c) hinv1
          rw [hg2]
          unfold countExisting at hpos ⊢
          rw [List.countP_append]
          omega
        · exact Or.inr hempty
      · exact ih (processCampaign false rdb st c0) hinv1 c hc'

theorem skip_all {rdb : RecyclingDB} :
    ∀ (l : List Campaign) (st : RunState),
      (∀ c ∈ l, 0 < countExisting st.gmaps c.id c.campaign_name
        ∨ resolvedTargets rdb c.id = []) →
      l.foldl (processCampaign false rdb) st = { st with skipped := st.skipped + l.length } := by
  intro l
  induction l with
  | nil => intro st _; simp
  | cons c l ih =>
      intro st h
      have hstep : processCampaign false rdb st c = { st with skipped := st.skipped + 1 } := by
        rcases h c (List.mem_cons_self c l) with hpos | hempty
        · exact pc_skip_existing hpos
        · exact pc_skip_empty hempty
      rw [List.foldl_cons, hstep]
      rw [ih { st with skipped := st.skipped + 1 } (fun c' hc' => h c' (List.mem_cons_of_mem c hc'))]
      simp only [List.length_cons]
      have e1 : st.skipped + 1 + l.length = st.skipped + (l.length + 1) := by omega
      rw [e1]

theorem foldl_pc_dry {rdb : RecyclingDB} :
    ∀ (l : List Campaign) (st : RunState),
      (l.foldl (processCampaign true rdb) st).created = st.created
      ∧ (l.foldl (processCampaign true rdb) st).gmaps = st.gmaps
      ∧ (l.foldl (processCampaign true rdb) st).trace = st.trace
      ∧ (l.foldl (processCampaign true rdb) st).skipped
          = st.skipped + l.countP (fun c =>
              decide (0 < countExisting st.gmaps c.id c.campaign_name)
              || decide (resolvedTargets rdb c.id = [])) := by
  intro l
  induction l with
  | nil => intro st; exact ⟨rfl, rfl, rfl, by simp⟩
  | cons c l ih =>
      intro st
      rw [List.foldl_cons]
      by_cases hc : 0 < countExisting st.gmaps c.id c.campaign_name
      · rw [pc_skip_existing hc]
        obtain ⟨h1, h2, h3, h4⟩ := ih { st with skipped := st.skipped + 1 }
        refine ⟨h1, h2, h3, ?_⟩
        have h4' : (l.foldl (processCampaign true rdb) { st with skipped := st.skipped + 1 }).skipped
            = st.skipped + 1 + l.countP (fun c' =>
                decide (0 < countExisting st.gmaps c'.id c'.campaign_name)
                || decide (resolvedTargets rdb c'.id = [])) := h4
        rw [h4', List.countP_cons]
        have hpc : (decide (0 < countExisting st.gmaps c.id c.campaign_name)
            || decide (resolvedTargets rdb c.id = [])) = true := by
          simp [hc]
        simp only [hpc]
        simp
        omega
      · by_cases hne : resolvedTargets rdb c.id = []
        · rw [pc_skip_empty hne]
          obtain ⟨h1, h2, h3, h4⟩ := ih { st with skipped := st.skipped + 1 }
          refine ⟨h1, h2, h3, ?_⟩
          have h4' : (l.foldl (processCampaign true rdb) { st with skipped := st.skipped + 1 }).skipped
              = st.skipped + 1 + l.countP (fun c' =>
                  decide (0 < countExisting st.gmaps c'.id c'.campaign_name)
                  || decide (resolvedTargets rdb c'.id = [])) := h4
          rw [h4', List.countP_cons]
          have hpc : (decide (0 < countExisting st.gmaps c.id c.campaign_name)
              || decide (resolvedTargets rdb c.id = [])) = true := by
            simp [hne]
          simp only [hpc]
          simp
          omega
        · rw [pc_dry_plan hc hne]
          obtain ⟨h1, h2, h3, h4⟩ := ih st
          refine ⟨h1, h2, h3, ?_⟩
          rw [h4, List.countP_cons]
          have hpc : (decide (0 < countExisting st.gmaps c.id c.campaign_name)
              || decide (resolvedTargets rdb c.id = [])) = false := by
            simp [hc, hne]
          simp only [hpc]
          simp

/-! ## Target-resolver lemmas -/

theorem mem_resolvedTargets {rdb : RecyclingDB} {cid : Nat} {t : GeoTarget}
    (h : t ∈ resolvedTargets rdb cid) :
    ∃ c ∈ eligibleCities rdb cid, t = GeoTarget.mk c.city_name c.state_code := by
  unfold resolvedTargets at h
  rw [mem_sortLe] at h
  obtain ⟨c, hc, he⟩ := List.mem_map.mp (mem_of_mem_dedupFirst h)
  exact ⟨c, hc, he.symm⟩

theorem resolved_county_free {rdb : RecyclingDB} {cid : Nat} :
    ∀ t ∈ resolvedTargets rdb cid, strContainsCI "county" t.city_name = false := by
  intro t ht
  obtain ⟨c, hc, rfl⟩ := mem_resolvedTargets ht
  have h2 := (List.mem_filter.mp hc).2
  simpa using h2

theorem resolved_nodup {rdb : RecyclingDB} {cid : Nat} : (resolvedTargets rdb cid).Nodup := by
  unfold resolvedTargets
  exact ((sortLe_perm _ _).symm).nodup (dedupFirst_nodup _)

/-! ## Claim theorems -/

/-- C2: for a resolved target sequence of size M and the fixed catalog of
size K, the planner produces exactly M×K query strings in catalog-major
order within each target, partitioned into `ceil(M×K / 2000)` plans, every
plan except possibly the last holding exactly 2000 queries, and the
concatenation of all plans equals the full cross product. -/
theorem queryPlanner_crossProduct_partition (cities : List GeoTarget) :
    (buildQueries cities).length = cities.length * CATEGORIES.length
    ∧ buildQueries cities = (cities.map (fun c => CATEGORIES.map (queryOf c))).flatten
    ∧ (planChunks (buildQueries cities)).length
        = (cities.length * CATEGORIES.length + BATCH_SIZE - 1) / BATCH_SIZE
    ∧ ((planChunks (buildQueries cities)).dropLast.all
        (fun l => decide (l.length = BATCH_SIZE))) = true
    ∧ (planChunks (buildQueries cities)).flatten = buildQueries cities := by
  refine ⟨length_buildQueries cities, buildQueries_eq cities, ?_, ?_, planChunks_flatten _⟩
  · rw [planChunks_length, length_buildQueries]
    rfl
  · rw [List.all_eq_true]
    intro l hl
    simp only [decide_eq_true_eq]
    exact planChunks_dropLast_aux (buildQueries cities).length _ (Nat.le_refl _) l hl

/-- C3: a campaign with an existing id-linked, exact-named, or
prefix-named batch in the tracker store gets no new batch: the campaign
step only increments the skip counter by exactly one. -/
theorem existingWork_skips_campaign (dry : Bool) (rdb : RecyclingDB) (st : RunState)
    (c : Campaign)
    (h : ∃ b ∈ st.gmaps,
      b.lead_recycling_campaign_id = some c.id
      ∨ b.campaign_name = some c.campaign_name
      ∨ strStarts b.name c.campaign_name = true) :
    processCampaign dry rdb st c = { st with skipped := st.skipped + 1 } := by
  obtain ⟨b, hb, hcase⟩ := h
  have hm : batchMatches c.id c.campaign_name b = true := by
    unfold batchMatches
    rcases hcase with h1 | h1 | h1
    · simp [h1]
    · simp [h1]
    · rw [likeMatch_of_strStarts h1]
      simp
  exact pc_skip_existing (List.countP_pos_iff.mpr ⟨b, hb, hm⟩)

def c3Campaign : Campaign := ⟨4, "Acme (GMaps)", true, 9⟩

def c3State : RunState := ⟨[⟨1, none, none, "Acme (GMaps) Part 2"⟩], 0, 0, 5, []⟩

def c3Rdb : RecyclingDB := ⟨[c3Campaign], [], [], []⟩

theorem existingWork_skips_campaign_witness :
    (∃ b ∈ c3State.gmaps,
      b.lead_recycling_campaign_id = some c3Campaign.id
      ∨ b.campaign_name = some c3Campaign.campaign_name
      ∨ strStarts b.name c3Campaign.campaign_name = true)
    ∧ processCampaign false c3Rdb c3State c3Campaign
        = { c3State with skipped := c3State.skipped + 1 } :=
  ⟨⟨⟨1, none, none, "Acme (GMaps) Part 2"⟩, by decide, Or.inr (Or.inr (by decide))⟩,
   existingWork_skips_campaign false c3Rdb c3State c3Campaign
     ⟨⟨1, none, none, "Acme (GMaps) Part 2"⟩, by decide, Or.inr (Or.inr (by decide))⟩⟩

/-- C7: a campaign whose resolved target set is empty gets no batch, no
submission and no tracker-store write; it is counted as skipped and the
run continues with the next campaign. -/
theorem emptyTargets_skips_campaign (dry : Bool) (rdb : RecyclingDB) (st : RunState)
    (c : Campaign) (h : resolvedTargets rdb c.id = []) :
    processCampaign dry rdb st c = { st with skipped := st.skipped + 1 }
    ∧ ∀ rest : List Campaign,
        (c :: rest).foldl (processCampaign dry rdb) st
          = rest.foldl (processCampaign dry rdb) { st with skipped := st.skipped + 1 } := by
  refine ⟨pc_skip_empty h, ?_⟩
  intro rest
  rw [List.foldl_cons, pc_skip_empty h]

def c7Campaign : Campaign := ⟨2, "Beta (GMaps)", true, 3⟩

def c7Rdb : RecyclingDB := ⟨[c7Campaign], [], [], []⟩

def c7State : RunState := ⟨[], 0, 0, 1, []⟩

theorem emptyTargets_skips_campaign_witness :
    resolvedTargets c7Rdb c7Campaign.id = []
    ∧ processCampaign false c7Rdb c7State c7Campaign
        = { c7State with skipped := c7State.skipped + 1 } :=
  ⟨by decide,
   (emptyTargets_skips_campaign false c7Rdb c7State c7Campaign (by decide)).1⟩

/-- C9: in dry-run mode the whole run leaves the created counter, the
tracker store and the effect trace unchanged, while the skip counter still
reflects the planning decisions (existing work or zero targets) of every
active campaign. -/
theorem dryRun_no_mutation (rdb : RecyclingDB) (st : RunState) :
    (run true rdb st).created = st.created
    ∧ (run true rdb st).gmaps = st.gmaps
    ∧ (run true rdb st).trace = st.trace
    ∧ (run true rdb st).skipped
        = st.skipped + (activeCampaigns rdb).countP (fun c =>
            decide (0 < countExisting st.gmaps c.id c.campaign_name)
            || decide (resolvedTargets rdb c.id = [])) :=
  foldl_pc_dry (activeCampaigns rdb) st

def c10Campaign : Campaign := ⟨7, "A%B (GMaps)", true, 1⟩

def c10Batch : Batch := ⟨3, none, none, "AxyB (GMaps) import 2024"⟩

def c10State : RunState := ⟨[c10Batch], 0, 0, 10, []⟩

def c10Rdb : RecyclingDB := ⟨[c10Campaign], [], [], []⟩

/-- C10: the name-prefix matcher uses the campaign name verbatim as a SQL
`LIKE` pattern, so a campaign whose name contains `%` is skipped because of
a batch whose name does not literally start with the campaign name. -/
theorem likePattern_wildcard_overmatch :
    strStarts c10Batch.name c10Campaign.campaign_name = false
    ∧ batchMatches c10Campaign.id c10Campaign.campaign_name c10Batch = true
    ∧ processCampaign false c10Rdb c10State c10Campaign
        = { c10State with skipped := c10State.skipped + 1 } := by
  refine ⟨by decide, by decide, ?_⟩
  exact pc_skip_existing (by decide)

def c1Rdb : RecyclingDB :=
  ⟨[⟨1, "Spotless Group (GMaps)", true, 10⟩],
   [⟨1, 100⟩],
   [⟨10, 200⟩],
   [⟨100, "Springfield", "IL"⟩, ⟨200, "Shelbyville", "IL"⟩]⟩

/-- C1 (code-bug evidence): the first-class target-assignment table yields
one row for campaign 1 (city 100), city 200 occurs only in the legacy
ownership-claim table, yet the resolved target set contains city 200's
target — the SQL `UNION` merges both sources instead of falling back. -/
theorem fallback_merge_bug :
    pipelineCityIds c1Rdb 1 = [100]
    ∧ (∀ cc ∈ c1Rdb.campaign_cities, cc.city_id ≠ 200)
    ∧ GeoTarget.mk "Shelbyville" "IL" ∈ resolvedTargets c1Rdb 1
    ∧ resolvedTargets c1Rdb 1
        = [GeoTarget.mk "Shelbyville" "IL", GeoTarget.mk "Springfield" "IL"] := by
  refine ⟨by decide, by decide, by decide, by decide⟩

def c8Rdb : RecyclingDB :=
  ⟨[⟨1, "Zeta (GMaps)", true, 2⟩],
   [⟨1, 100⟩, ⟨1, 101⟩],
   [],
   [⟨100, "SPRINGFIELD", "IL"⟩, ⟨101, "Springfield", "IL"⟩]⟩

/-- C8 counterexample: two source rows whose city names differ only in
letter case do not collapse — `SELECT DISTINCT` compares exactly, so both
survive as separate resolved targets. -/
theorem caseDedup_counterexample :
    lowerList "SPRINGFIELD".toList = lowerList "Springfield".toList
    ∧ resolvedTargets c8Rdb 1
        = [GeoTarget.mk "SPRINGFIELD" "IL", GeoTarget.mk "Springfield" "IL"]
    ∧ (resolvedTargets c8Rdb 1).length = 2 := by
  refine ⟨by decide, by decide, by decide⟩

/-- C8 (amended): the resolved GeoTarget set is deduplicated exactly (no
two equal `(city_name, state_code)` pairs survive; case-differing names
remain distinct), and every entry whose city name contains the substring
`county` in any case is excluded. -/
theorem resolvedTargets_dedup_countyFree (rdb : RecyclingDB) (cid : Nat) :
    (resolvedTargets rdb cid).Nodup
    ∧ ((resolvedTargets rdb cid).all
        (fun t => !(strContainsCI "county" t.city_name))) = true := by
  refine ⟨resolved_nodup, ?_⟩
  rw [List.all_eq_true]
  intro t ht
  simp [resolved_county_free t ht]

/-- C5: a campaign producing at most 2000 queries yields exactly one
submitted batch named with the plain base name; the tracker store gains
only the externally created row and no correction write is emitted. -/
theorem singlePart_naming (rdb : RecyclingDB) (st : RunState) (c : Campaign)
    (hinv : ∀ b ∈ st.gmaps, b.batch_id < st.nextBatchId)
    (hct : ¬ 0 < countExisting st.gmaps c.id c.campaign_name)
    (hne : resolvedTargets rdb c.id ≠ [])
    (hle : (buildQueries (resolvedTargets rdb c.id)).length ≤ BATCH_SIZE) :
    processCampaign false rdb st c =
      { gmaps := st.gmaps
          ++ [⟨st.nextBatchId, some c.id, some c.campaign_name, c.campaign_name⟩],
        created := st.created + 1,
        skipped := st.skipped,
        nextBatchId := st.nextBatchId + 1,
        trace := st.trace ++ [Effect.post ⟨c.campaign_name,
          buildQueries (resolvedTargets rdb c.id), true,
          targetStatesOf (resolvedTargets rdb c.id), c.id⟩] } := by
  have h1 : 1 ≤ (buildQueries (resolvedTargets rdb c.id)).length := buildQueries_pos hne
  have htp : totalParts (buildQueries (resolvedTargets rdb c.id)).length = 1 :=
    totalParts_eq_one h1 hle
  rw [pc_create hct hne, htp]
  show submitStep _ _ _ _ _ st 0 = _
  rw [submitStep_spec _ _ _ _ _ _ _ hinv]
  have hnlt : ¬ (1 : Nat) < 1 := Nat.lt_irrefl 1
  have hndel : ¬ (0 : Nat) < 1 - 1 := by norm_num
  simp only [if_neg hnlt, if_neg hndel, Nat.zero_mul, List.drop_zero, List.append_nil]
  rw [List.take_of_length_le hle]

def c5Campaign : Campaign := ⟨11, "Gamma (GMaps)", true, 7⟩

def c5Rdb : RecyclingDB := ⟨[c5Campaign], [⟨11, 100⟩], [], [⟨100, "Portland", "OR"⟩]⟩

def c5State : RunState := ⟨[], 0, 0, 1, []⟩

theorem singlePart_naming_witness :
    ((∀ b ∈ c5State.gmaps, b.batch_id < c5State.nextBatchId)
      ∧ ¬ 0 < countExisting c5State.gmaps c5Campaign.id c5Campaign.campaign_name
      ∧ resolvedTargets c5Rdb c5Campaign.id ≠ []
      ∧ (buildQueries (resolvedTargets c5Rdb c5Campaign.id)).length ≤ BATCH_SIZE)
    ∧ processCampaign false c5Rdb c5State c5Campaign =
        { gmaps := c5State.gmaps
            ++ [⟨c5State.nextBatchId, some c5Campaign.id, some c5Campaign.campaign_name,
                c5Campaign.campaign_name⟩],
          created := c5State.created + 1,
          skipped := c5State.skipped,
          nextBatchId := c5State.nextBatchId + 1,
          trace := c5State.trace ++ [Effect.post ⟨c5Campaign.campaign_name,
            buildQueries (resolvedTargets c5Rdb c5Campaign.id), true,
            targetStatesOf (resolvedTargets c5Rdb c5Campaign.id), c5Campaign.id⟩] } :=
  ⟨⟨by decide, by decide, by decide, by decide⟩,
   singlePart_naming c5Rdb c5State c5Campaign (by decide) (by decide) (by decide) (by decide)⟩

/-- C4: a campaign whose query count needs more than one partition submits
its parts under the display names `base ++ " Part N"` with `N` 1-indexed in
submission order, emits one correction write per created batch, and every
created batch's stored display name ends up equal to the plain base name. -/
theorem multiPart_naming (rdb : RecyclingDB) (st : RunState) (c : Campaign)
    (hinv : ∀ b ∈ st.gmaps, b.batch_id < st.nextBatchId)
    (hct : ¬ 0 < countExisting st.gmaps c.id c.campaign_name)
    (hne : resolvedTargets rdb c.id ≠ [])
    (htp : 1 < totalParts (buildQueries (resolvedTargets rdb c.id)).length) :
    ∃ rows tr,
      (processCampaign false rdb st c).gmaps = st.gmaps ++ rows
      ∧ (processCampaign false rdb st c).trace = st.trace ++ tr
      ∧ rows.length = totalParts (buildQueries (resolvedTargets rdb c.id)).length
      ∧ (∀ b ∈ rows, b.campaign_name = some c.campaign_name)
      ∧ postedNames tr
          = (List.range (totalParts (buildQueries (resolvedTargets rdb c.id)).length)).map
              (fun i => c.campaign_name ++ " Part " ++ toString (i + 1))
      ∧ tr.countP isUpdateEffect
          = totalParts (buildQueries (resolvedTargets rdb c.id)).length := by
  obtain ⟨rows, tr, hg, ht, -, -, -, hrl, hrprop, hpn, hcnt, -⟩ :=
    submitFold_spec c.campaign_name c.id (buildQueries (resolvedTargets rdb c.id))
      (targetStatesOf (resolvedTargets rdb c.id))
      (totalParts (buildQueries (resolvedTargets rdb c.id)).length)
      (List.range (totalParts (buildQueries (resolvedTargets rdb c.id)).length)) st hinv
  rw [pc_create hct hne]
  refine ⟨rows, tr, hg, ht, ?_, fun b hb => (hrprop b hb).2.1, ?_, ?_⟩
  · rw [hrl]
    simp
  · rw [hpn]
    apply List.map_congr_left
    intro i _
    rw [if_pos htp]
  · rw [hcnt, if_pos htp]
    simp

def c4Campaign : Campaign := ⟨21, "Delta (GMaps)", true, 8⟩

def c4Rdb : RecyclingDB :=
  ⟨[c4Campaign],
   [⟨21, 1⟩, ⟨21, 2⟩, ⟨21, 3⟩, ⟨21, 4⟩, ⟨21, 5⟩, ⟨21, 6⟩, ⟨21, 7⟩, ⟨21, 8⟩, ⟨21, 9⟩, ⟨21, 10⟩],
   [],
   [⟨1, "Akron", "OH"⟩, ⟨2, "Boise", "ID"⟩, ⟨3, "Casper", "WY"⟩, ⟨4, "Denton", "TX"⟩,
    ⟨5, "Eugene", "OR"⟩, ⟨6, "Fresno", "CA"⟩, ⟨7, "Gilbert", "AZ"⟩, ⟨8, "Helena", "MT"⟩,
    ⟨9, "Irvine", "CA"⟩, ⟨10, "Juneau", "AK"⟩]⟩

def c4State : RunState := ⟨[], 0, 0, 1, []⟩

theorem multiPart_naming_witness :
    ((∀ b ∈ c4State.gmaps, b.batch_id < c4State.nextBatchId)
      ∧ ¬ 0 < countExisting c4State.gmaps c4Campaign.id c4Campaign.campaign_name
      ∧ resolvedTargets c4Rdb c4Campaign.id ≠ []
      ∧ 1 < totalParts (buildQueries (resolvedTargets c4Rdb c4Campaign.id)).length)
    ∧ ∃ rows tr,
        (processCampaign false c4Rdb c4State c4Campaign).gmaps = c4State.gmaps ++ rows
        ∧ (processCampaign false c4Rdb c4State c4Campaign).trace = c4State.trace ++ tr
        ∧ rows.length = totalParts (buildQueries (resolvedTargets c4Rdb c4Campaign.id)).length
        ∧ (∀ b ∈ rows, b.campaign_name = some c4Campaign.campaign_name)
        ∧ postedNames tr
            = (List.range
                (totalParts (buildQueries (resolvedTargets c4Rdb c4Campaign.id)).length)).map
                (fun i => c4Campaign.campaign_name ++ " Part " ++ toString (i + 1))
        ∧ tr.countP isUpdateEffect
            = totalParts (buildQueries (resolvedTargets c4Rdb c4Campaign.id)).length :=
  have h4 : 1 < totalParts (buildQueries (resolvedTargets c4Rdb c4Campaign.id)).length := by
    rw [length_buildQueries]
    have h1 : (resolvedTargets c4Rdb c4Campaign.id).length = 10 := by decide
    have h2 : CATEGORIES.length = 211 := by decide
    rw [h1, h2]
    decide
  ⟨⟨by decide, by decide, by decide, h4⟩,
   multiPart_naming c4Rdb c4State c4Campaign (by decide) (by decide) (by decide) h4⟩

/-- C6: re-running the whole process on an unchanged world creates zero
additional batches: the second run's created counter stays 0, the tracker
store is unchanged, and every active campaign either already matches the
existing-work check after the first run or resolves to zero targets. -/
theorem rerun_creates_nothing (rdb : RecyclingDB) (st : RunState)
    (hinv : ∀ b ∈ st.gmaps, b.batch_id < st.nextBatchId) :
    (run false rdb
        (RunState.mk (run false rdb st).gmaps 0 0 (run false rdb st).nextBatchId [])).created = 0
    ∧ (run false rdb
        (RunState.mk (run false rdb st).gmaps 0 0 (run false rdb st).nextBatchId [])).gmaps
        = (run false rdb st).gmaps
    ∧ ∀ c ∈ activeCampaigns rdb,
        0 < countExisting (run false rdb st).gmaps c.id c.campaign_name
        ∨ resolvedTargets rdb c.id = [] := by
  have hdich : ∀ c ∈ activeCampaigns rdb,
      0 < countExisting (run false rdb st).gmaps c.id c.campaign_name
      ∨ resolvedTargets rdb c.id = [] :=
    run1_dichotomy (activeCampaigns rdb) st hinv
  have hskip : (activeCampaigns rdb).foldl (processCampaign false rdb)
      (RunState.mk (run false rdb st).gmaps 0 0 (run false rdb st).nextBatchId [])
      = { RunState.mk (run false rdb st).gmaps 0 0 (run false rdb st).nextBatchId []
          with skipped := 0 + (activeCampaigns rdb).length } := by
    apply skip_all
    intro c hc
    exact hdich c hc
  refine ⟨?_, ?_, hdich⟩
  · show ((activeCampaigns rdb).foldl (processCampaign false rdb)
      (RunState.mk (run false rdb st).gmaps 0 0 (run false rdb st).nextBatchId [])).created = 0
    rw [hskip]
  · show ((activeCampaigns rdb).foldl (processCampaign false rdb)
      (RunState.mk (run false rdb st).gmaps 0 0 (run false rdb st).nextBatchId [])).gmaps
      = (run false rdb st).gmaps
    rw [hskip]

def c6Campaign : Campaign := ⟨31, "Epsilon (GMaps)", true, 12⟩

def c6Rdb : RecyclingDB := ⟨[c6Campaign], [⟨31, 5⟩], [], [⟨5, "Plainfield", "NJ"⟩]⟩

def c6State : RunState := ⟨[], 0, 0, 1, []⟩

theorem rerun_creates_nothing_witness :
    (∀ b ∈ c6State.gmaps, b.batch_id < c6State.nextBatchId)
    ∧ ((run false c6Rdb
          (RunState.mk (run false c6Rdb c6State).gmaps 0 0
            (run false c6Rdb c6State).nextBatchId [])).created = 0
      ∧ (run false c6Rdb
          (RunState.mk (run false c6Rdb c6State).gmaps 0 0
            (run false c6Rdb c6State).nextBatchId [])).gmaps
          = (run false c6Rdb c6State).gmaps
      ∧ ∀ c ∈ activeCampaigns c6Rdb,
          0 < countExisting (run false c6Rdb c6State).gmaps c.id c.campaign_name
          ∨ resolvedTargets c6Rdb c.id = []) :=
  ⟨by decide, rerun_creates_nothing c6Rdb c6State (by decide)⟩
